import Mathlib

/-!
A shallow embedding of `src/proxy.js` from the soeproxy repository: the
request-transformation pipeline of the `onProxyReq` handler (multipart
dispatch, JSON metadata rewriting, multipart re-encoding with the
`form-data` library, content-length computation, forwarding-pipe terminal
actions), the `onProxyRes` relay handler, and the `doxForward` proxy
configuration.  Theorems at the end settle the specification claims.
-/

namespace Soeproxy

/-! ## JSON values

Model of the JavaScript values produced by `JSON.parse`: null, booleans,
numbers (only integers are modelled; no claim depends on fractional
numbers), strings, arrays and objects.  An object is an association list
of key/value pairs in insertion order, mirroring JS property order for
string keys. -/

inductive Json where
  | null : Json
  | bool (b : Bool) : Json
  | num (n : Int) : Json
  | str (s : String) : Json
  | arr (xs : List Json) : Json
  | obj (kvs : List (String × Json)) : Json

/-- JS property write `o[k] = v` on an object: replaces the value of an
existing key in place (keeping its position), otherwise appends the new
key at the end, as JS insertion order does. -/
def setKey (k : String) (v : Json) : List (String × Json) → List (String × Json)
  | [] => [(k, v)]
  | (k2, v2) :: rest => if k2 = k then (k2, v) :: rest else (k2, v2) :: setKey k v rest

/-- JS `delete o[k]`: removes the key if present; absence is not an error. -/
def eraseKey (k : String) : List (String × Json) → List (String × Json)
  | [] => []
  | (k2, v2) :: rest => if k2 = k then eraseKey k rest else (k2, v2) :: eraseKey k rest

/-- JS property read `o[k]`. -/
def lookupKey (k : String) : List (String × Json) → Option Json
  | [] => none
  | (k2, v2) :: rest => if k2 = k then some v2 else lookupKey k rest

def Json.isObj : Json → Bool
  | .obj _ => true
  | _ => false

def Json.isNull : Json → Bool
  | .null => true
  | _ => false

/-- Whether a JSON value is an object having the given key. -/
def jsonHasKey (k : String) : Json → Bool
  | .obj kvs => (lookupKey k kvs).isSome
  | _ => false

/-! ## JSON parsing

Model of the JS builtin `JSON.parse` (an external collaborator of the
source), as a fuel-indexed recursive-descent parser over the character
list.  It covers the fragment every claim depends on: literals, integer
numbers, strings with the common escapes, arrays and objects; on any
other input it returns `none`, which models `JSON.parse` throwing.
Duplicate object keys follow JS last-wins semantics via `setKey`. -/

def skipWs : List Char → List Char
  | [] => []
  | c :: cs => if c = ' ' ∨ c = '\n' ∨ c = '\r' ∨ c = '\t' then skipWs cs else c :: cs

def digitsToNat (ds : List Char) : Nat :=
  ds.foldl (fun acc c => acc * 10 + (c.toNat - 48)) 0

/-- Parse the remainder of a JSON string literal (the opening quote is
already consumed), returning the decoded string and the rest of the
input. -/
def parseStrChars : Nat → List Char → Option (String × List Char)
  | 0, _ => none
  | _, [] => none
  | fuel + 1, c :: cs =>
    if c = '"' then some ("", cs)
    else if c = '\\' then
      match cs with
      | [] => none
      | e :: cs2 =>
        let dec : Option Char :=
          if e = '"' then some '"'
          else if e = '\\' then some '\\'
          else if e = '/' then some '/'
          else if e = 'n' then some '\n'
          else if e = 't' then some '\t'
          else if e = 'r' then some '\r'
          else none
        match dec with
        | none => none
        | some d =>
          match parseStrChars fuel cs2 with
          | none => none
          | some (s, rest) => some (String.singleton d ++ s, rest)
    else
      match parseStrChars fuel cs with
      | none => none
      | some (s, rest) => some (String.singleton c ++ s, rest)

mutual

def parseVal : Nat → List Char → Option (Json × List Char)
  | 0, _ => none
  | fuel + 1, cs =>
    match skipWs cs with
    | 'n' :: 'u' :: 'l' :: 'l' :: rest => some (Json.null, rest)
    | 't' :: 'r' :: 'u' :: 'e' :: rest => some (Json.bool true, rest)
    | 'f' :: 'a' :: 'l' :: 's' :: 'e' :: rest => some (Json.bool false, rest)
    | c :: rest =>
      if c = '"' then
        match parseStrChars (rest.length + 1) rest with
        | none => none
        | some (s, rest2) => some (Json.str s, rest2)
      else if c = '[' then
        match parseArrStart fuel rest with
        | none => none
        | some (xs, rest2) => some (Json.arr xs, rest2)
      else if c = '\x7b' then
        match parseObjStart fuel rest with
        | none => none
        | some (ps, rest2) =>
          some (Json.obj (ps.foldl (fun m kv => setKey kv.fst kv.snd m) []), rest2)
      else if c = '-' then
        match rest with
        | d :: _ =>
          if d.isDigit then
            some (Json.num (-(Int.ofNat (digitsToNat (rest.takeWhile Char.isDigit)))),
                  rest.dropWhile Char.isDigit)
          else none
        | [] => none
      else if c.isDigit then
        some (Json.num (Int.ofNat (digitsToNat ((c :: rest).takeWhile Char.isDigit))),
              (c :: rest).dropWhile Char.isDigit)
      else none
    | [] => none

def parseArrStart : Nat → List Char → Option (List Json × List Char)
  | 0, _ => none
  | fuel + 1, cs =>
    match skipWs cs with
    | c :: rest =>
      if c = ']' then some ([], rest)
      else
        match parseVal fuel (c :: rest) with
        | none => none
        | some (v, rest2) =>
          match parseArrTail fuel rest2 with
          | none => none
          | some (vs, rest3) => some (v :: vs, rest3)
    | [] => none

def parseArrTail : Nat → List Char → Option (List Json × List Char)
  | 0, _ => none
  | fuel + 1, cs =>
    match skipWs cs with
    | c :: rest =>
      if c = ']' then some ([], rest)
      else if c = ',' then
        match parseVal fuel rest with
        | none => none
        | some (v, rest2) =>
          match parseArrTail fuel rest2 with
          | none => none
          | some (vs, rest3) => some (v :: vs, rest3)
      else none
    | [] => none

def parsePair : Nat → List Char → Option ((String × Json) × List Char)
  | 0, _ => none
  | fuel + 1, cs =>
    match skipWs cs with
    | c :: rest =>
      if c = '"' then
        match parseStrChars (rest.length + 1) rest with
        | none => none
        | some (k, rest2) =>
          match skipWs rest2 with
          | d :: rest3 =>
            if d = ':' then
              match parseVal fuel rest3 with
              | none => none
              | some (v, rest4) => some ((k, v), rest4)
            else none
          | [] => none
      else none
    | [] => none

def parseObjStart : Nat → List Char → Option (List (String × Json) × List Char)
  | 0, _ => none
  | fuel + 1, cs =>
    match skipWs cs with
    | c :: rest =>
      if c = '\x7d' then some ([], rest)
      else
        match parsePair fuel (c :: rest) with
        | none => none
        | some (kv, rest2) =>
          match parseObjTail fuel rest2 with
          | none => none
          | some (kvs, rest3) => some (kv :: kvs, rest3)
    | [] => none

def parseObjTail : Nat → List Char → Option (List (String × Json) × List Char)
  | 0, _ => none
  | fuel + 1, cs =>
    match skipWs cs with
    | c :: rest =>
      if c = '\x7d' then some ([], rest)
      else if c = ',' then
        match parsePair fuel rest with
        | none => none
        | some (kv, rest2) =>
          match parseObjTail fuel rest2 with
          | none => none
          | some (kvs, rest3) => some (kv :: kvs, rest3)
      else none
    | [] => none

end

/-- Model of `JSON.parse(s)`: `some` on success, `none` when the builtin
would throw (invalid JSON, including trailing garbage). -/
def jsonParse (s : String) : Option Json :=
  match parseVal (3 * s.length + 8) s.data with
  | none => none
  | some (v, rest) => if (skipWs rest).isEmpty then some v else none

/-! ## JSON serialization

Model of `JSON.stringify` for parsed values: object keys in property
insertion order, strings escaped with the standard short escapes. -/

def escChar (c : Char) : String :=
  if c = '"' then "\\\""
  else if c = '\\' then "\\\\"
  else if c = '\n' then "\\n"
  else if c = '\r' then "\\r"
  else if c = '\t' then "\\t"
  else String.singleton c

def escapeStr (s : String) : String :=
  s.data.foldl (fun acc c => acc ++ escChar c) ""

mutual

def jsonStringify : Json → String
  | .null => "null"
  | .bool true => "true"
  | .bool false => "false"
  | .num n => toString n
  | .str s => "\"" ++ escapeStr s ++ "\""
  | .arr xs => "[" ++ stringifyItems xs ++ "]"
  | .obj kvs => "\x7b" ++ stringifyPairs kvs ++ "\x7d"

def stringifyItems : List Json → String
  | [] => ""
  | [x] => jsonStringify x
  | x :: y :: xs => jsonStringify x ++ "," ++ stringifyItems (y :: xs)

def stringifyPairs : List (String × Json) → String
  | [] => ""
  | [(k, v)] => "\"" ++ escapeStr k ++ "\":" ++ jsonStringify v
  | (k, v) :: p :: xs => "\"" ++ escapeStr k ++ "\":" ++ jsonStringify v ++ "," ++ stringifyPairs (p :: xs)

end

/-! ## The metadata transformation (proxy.js lines 40-46)

`const jsonOptions = JSON.parse(req.body[key]); jsonOptions.schemaName =
doxSchemaName; delete jsonOptions.extraction;
form.append(key, JSON.stringify(jsonOptions));`

The file is a sloppy-mode CommonJS module, so the property write on a
parsed value behaves as follows:
* on an object it sets/overwrites the key;
* on `null` it throws a `TypeError` (modelled as `Except.error`);
* on a primitive (number, string, boolean) it is a silent no-op;
* on an array it sets a named property which `JSON.stringify` then
  ignores (only index properties are serialized), so the serialized
  value is unchanged.
The subsequent `delete` on a non-null value never throws and only
affects objects. -/

def transformValue (cfg : String) : Json → Except Unit Json
  | .obj kvs => Except.ok (.obj (eraseKey "extraction" (setKey "schemaName" (.str cfg) kvs)))
  | .null => Except.error ()
  | v => Except.ok v

/-- The configured schema name (proxy.js line 20):
`process.env.DOX_SCHEMA || "SO_Auto_Extraction_Schema"` — note `||`, so
an empty environment value also falls back to the default. -/
def doxSchemaName (env : Option String) : String :=
  match env with
  | none => "SO_Auto_Extraction_Schema"
  | some s => if s = "" then "SO_Auto_Extraction_Schema" else s

/-! ## UTF-8 bytes

`form-data` measures and emits strings as UTF-8 (`Buffer.byteLength`);
bytes are modelled as `Nat` values below 256. -/

def charBytes (c : Char) : List Nat :=
  let n := c.toNat
  if n < 128 then [n]
  else if n < 2048 then [192 + n / 64, 128 + n % 64]
  else if n < 65536 then [224 + n / 4096, 128 + n / 64 % 64, 128 + n % 64]
  else [240 + n / 262144, 128 + n / 4096 % 64, 128 + n / 64 % 64, 128 + n % 64]

def strBytes (s : String) : List Nat :=
  s.data.foldr (fun c acc => charBytes c ++ acc) []

/-! ## The form-data encoder (proxy.js lines 36-71)

Model of the parts accumulated by `form.append` and of the byte stream
the `form-data` library emits for them.  `onProxyReq` appends only
string fields and in-memory file buffers, whose lengths are known
synchronously; the library additionally accepts stream-backed parts
whose length `getLengthSync` cannot compute — `Part.stream` models
those, which is what makes the length-computation failure branch
(lines 69-71) reachable. -/

inductive Part where
  | field (name : String) (value : String)
  | file (name filename mime : String) (content : List Nat)
  | stream (name : String) (content : List Nat)
deriving DecidableEq

def crlf : String := "\r\n"

/-- The per-part header block emitted by `form-data`: leading boundary
line, `Content-Disposition` (with `filename` and `Content-Type` for
files), terminated by a blank line. -/
def partHeaderStr (bd : String) : Part → String
  | Part.field name _ =>
      "--" ++ bd ++ crlf ++ "Content-Disposition: form-data; name=\"" ++ name ++ "\""
        ++ crlf ++ crlf
  | Part.file name filename mime _ =>
      "--" ++ bd ++ crlf ++ "Content-Disposition: form-data; name=\"" ++ name
        ++ "\"; filename=\"" ++ filename ++ "\"" ++ crlf
        ++ "Content-Type: " ++ mime ++ crlf ++ crlf
  | Part.stream name _ =>
      "--" ++ bd ++ crlf ++ "Content-Disposition: form-data; name=\"" ++ name ++ "\""
        ++ crlf ++ crlf

def partBytes : Part → List Nat
  | Part.field _ v => strBytes v
  | Part.file _ _ _ bs => bs
  | Part.stream _ bs => bs

/-- Whether the part's length is known synchronously (strings and
buffers are, stream-backed parts are not). -/
def partKnown : Part → Bool
  | Part.stream _ _ => false
  | _ => true

def lastBoundaryStr (bd : String) : String := "--" ++ bd ++ "--" ++ crlf

/-- One part's contribution to the emitted stream: header block, raw
content, trailing CRLF footer. -/
def emitPart (bd : String) (p : Part) : List Nat :=
  strBytes (partHeaderStr bd p) ++ partBytes p ++ strBytes crlf

def emitParts (bd : String) : List Part → List Nat
  | [] => []
  | p :: ps => emitPart bd p ++ emitParts bd ps

/-- The full multipart stream the form pipes out: every part followed by
the closing boundary, which is emitted with the last part's footer (so
an empty form emits nothing). -/
def emitForm (bd : String) (parts : List Part) : List Nat :=
  match parts with
  | [] => []
  | _ :: _ => emitParts bd parts ++ strBytes (lastBoundaryStr bd)

/-- A part's contribution to the length accumulators `_overheadLength`
(header plus footer CRLF) and `_valueLength` (content). -/
def partLen (bd : String) (p : Part) : Nat :=
  (strBytes (partHeaderStr bd p)).length + (partBytes p).length + (strBytes crlf).length

/-- Model of `form.getLengthSync()`: the accumulated overhead and value
lengths plus the closing boundary when any part exists; it errors when
some part's length is not known synchronously (in the source that error
surfaces as a thrown exception, caught by the surrounding `try`). -/
def getLengthSync (bd : String) (parts : List Part) : Except Unit Nat :=
  if parts.all partKnown then
    Except.ok ((parts.map (partLen bd)).sum +
      match parts with
      | [] => 0
      | _ :: _ => (strBytes (lastBoundaryStr bd)).length)
  else Except.error ()

/-! ## The request model and the onProxyReq pipeline -/

structure UploadedFile where
  fieldname : String
  originalname : String
  mimetype : String
  buffer : List Nat
deriving DecidableEq

/-- An inbound request as `onProxyReq` sees it after `multer`: method,
Content-Type header (if any), the text-field map `req.body`, the file
list `req.files`, and the raw buffered body used by the non-multipart
passthrough. -/
structure Req where
  method : String
  contentType : Option String
  body : List (String × String)
  files : List UploadedFile
  rawBody : List Nat

/-- `req.get('Content-Type') || ''` (proxy.js line 32). -/
def reqContentType (req : Req) : String :=
  match req.contentType with
  | none => ""
  | some s => s

/-- Whether `pat` occurs at the head of `cs`. -/
def patAtHead : List Char → List Char → Bool
  | _, [] => true
  | [], _ :: _ => false
  | c :: cs, p :: ps => c = p && patAtHead cs ps

/-- Whether `pat` occurs contiguously anywhere in `cs`. -/
def patInList (cs pat : List Char) : Bool :=
  if patAtHead cs pat then true
  else
    match cs with
    | [] => false
    | _ :: rest => patInList rest pat

/-- JS `String.prototype.includes`: case-sensitive substring test. -/
def strContains (s pat : String) : Bool :=
  patInList s.data pat.data

/-- The dispatch test of proxy.js line 33:
`req.method === 'POST' && contentType.includes('multipart/form-data')`. -/
def dispatchMultipart (req : Req) : Bool :=
  req.method == "POST" && strContains (reqContentType req) "multipart/form-data"

/-- One iteration of the field loop (lines 40-46): parse the field text
as JSON (throwing on invalid JSON), apply the rewrite, and append the
re-serialized text as a form part. -/
def transformField (cfg : String) (kv : String × String) : Except Unit Part :=
  match jsonParse kv.snd with
  | none => Except.error ()
  | some j =>
    match transformValue cfg j with
    | Except.error e => Except.error e
    | Except.ok j2 => Except.ok (Part.field kv.fst (jsonStringify j2))

/-- The whole field loop: the first failure aborts the transformation of
the request (the thrown exception propagates to the outer catch). -/
def transformFields (cfg : String) : List (String × String) → Except Unit (List Part)
  | [] => Except.ok []
  | kv :: rest =>
    match transformField cfg kv with
    | Except.error e => Except.error e
    | Except.ok p =>
      match transformFields cfg rest with
      | Except.error e => Except.error e
      | Except.ok ps => Except.ok (p :: ps)

def mkFilePart (f : UploadedFile) : Part :=
  Part.file f.fieldname f.originalname f.mimetype f.buffer

/-- Outcome of the multipart branch once the form is built: the parts,
the optional Content-Length header and the emitted body bytes. -/
structure MultipartOutcome where
  parts : List Part
  contentLength : Option Nat
  body : List Nat
deriving DecidableEq

/-- Lines 63-75: try `getLengthSync`; set the Content-Length header only
for a truthy non-NaN value (`if (length && !Number.isNaN(length))`, so a
zero length is not set either); on a thrown length error, fall back to
chunked transfer by omitting the header; then pipe the form. -/
def finishMultipart (bd : String) (parts : List Part) : MultipartOutcome :=
  { parts := parts
    contentLength :=
      match getLengthSync bd parts with
      | Except.ok n => if n = 0 then none else some n
      | Except.error _ => none
    body := emitForm bd parts }

/-- What the `onProxyReq` handler did with a request:
* `multipart o` — the Transformer/Encoder path succeeded and the form is
  piped to the outbound request;
* `passthrough` — the non-multipart branch ran `fixRequestBody`, which
  forwards the already-buffered body unchanged;
* `errorCaught logged responseSent` — an exception reached the outer
  catch (lines 88-90), which logs it (`logged = true`) and writes
  nothing to the client response (`responseSent = false`). -/
inductive ProxyAction where
  | multipart (o : MultipartOutcome)
  | passthrough
  | errorCaught (logged : Bool) (responseSent : Bool)
deriving DecidableEq

/-- The `onProxyReq` handler (proxy.js lines 30-91), as a function of
the resolved schema name `cfg`, the boundary `bd` the form-data library
generated for this request, and the parsed request. -/
def onProxyReq (cfg bd : String) (req : Req) : ProxyAction :=
  if dispatchMultipart req then
    match transformFields cfg req.body with
    | Except.error _ => ProxyAction.errorCaught true false
    | Except.ok fieldParts =>
        ProxyAction.multipart (finishMultipart bd (fieldParts ++ req.files.map mkFilePart))
  else ProxyAction.passthrough

/-- The body bytes the handler causes to be written toward the upstream
connection: the emitted form for the multipart path, the unchanged raw
body for the passthrough, nothing when the exception was caught. -/
def outboundBytes (req : Req) : ProxyAction → List Nat
  | ProxyAction.multipart o => o.body
  | ProxyAction.passthrough => req.rawBody
  | ProxyAction.errorCaught _ _ => []

/-! ## Forwarding-pipe terminal actions (proxy.js lines 75-82)

`form.pipe(proxyReq); form.on('error', ... proxyReq.destroy(err));
form.on('end', ... proxyReq.end());` — the source form stream fires
exactly one terminal event, and each registered handler fires on its own
event only. -/

inductive FormStreamEvent where
  | streamError
  | streamEnd
deriving DecidableEq

inductive OutboundAction where
  | destroyReq
  | finishReq
deriving DecidableEq

/-- The listeners registered on the form stream, in registration order. -/
def formPipeHandlers : List (FormStreamEvent × OutboundAction) :=
  [(FormStreamEvent.streamError, OutboundAction.destroyReq),
   (FormStreamEvent.streamEnd, OutboundAction.finishReq)]

/-- The terminal actions performed on the outbound request when the form
stream fires the given terminal event. -/
def outboundActionsFor (e : FormStreamEvent) : List OutboundAction :=
  formPipeHandlers.filterMap (fun p => if p.fst = e then some p.snd else none)

/-! ## The response relay handler and the proxy configuration
(proxy.js lines 94-112) -/

inductive UpstreamResEvent where
  | streamError
  | streamEnd
deriving DecidableEq

inductive ClientAction where
  | destroyClient
  | relayNormally
deriving DecidableEq

/-- The `onProxyRes` handler function (lines 94-101): pipes the upstream
response to the client and, on a stream error, destroys the client
connection. -/
def onProxyRes (e : UpstreamResEvent) : ClientAction :=
  match e with
  | UpstreamResEvent.streamError => ClientAction.destroyClient
  | UpstreamResEvent.streamEnd => ClientAction.relayNormally

/-- The options object passed to `createProxyMiddleware`. -/
structure HpmOptions where
  target : String
  changeOrigin : Bool
  proxyReqActive : Bool
  proxyResActive : Bool
deriving DecidableEq

/-- The `doxForward` middleware configuration (lines 103-112): the
`proxyReq` hook is registered; the `proxyRes` hook is commented out
(`//proxyRes: onProxyRes,`), so the `onProxyRes` handler is not
registered. -/
def doxForward : HpmOptions :=
  { target := "https://aiservices-dox.cfapps.eu10.hana.ondemand.com"
    changeOrigin := true
    proxyReqActive := true
    proxyResActive := false }

/-! ## Association-list lemmas for the JS property operations -/

theorem lookupKey_setKey_self (k : String) (v : Json) (l : List (String × Json)) :
    lookupKey k (setKey k v l) = some v := by
  induction l with
  | nil => simp [setKey, lookupKey]
  | cons kv rest ih =>
    obtain ⟨k2, v2⟩ := kv
    by_cases h : k2 = k
    · simp [setKey, lookupKey, h]
    · simp [setKey, lookupKey, h, ih]

theorem lookupKey_setKey_other (k k2 : String) (v : Json) (l : List (String × Json))
    (h : k ≠ k2) : lookupKey k (setKey k2 v l) = lookupKey k l := by
  induction l with
  | nil => simp [setKey, lookupKey, Ne.symm h]
  | cons kv rest ih =>
    obtain ⟨k3, v3⟩ := kv
    by_cases h3 : k3 = k2
    · subst h3
      simp [setKey, lookupKey, Ne.symm h]
    · by_cases hk : k3 = k
      · simp [setKey, lookupKey, h3, hk, h]
      · simp [setKey, lookupKey, h3, hk, ih]

theorem lookupKey_eraseKey_self (k : String) (l : List (String × Json)) :
    lookupKey k (eraseKey k l) = none := by
  induction l with
  | nil => simp [eraseKey, lookupKey]
  | cons kv rest ih =>
    obtain ⟨k2, v2⟩ := kv
    by_cases h : k2 = k
    · simp [eraseKey, h, ih]
    · simp [eraseKey, lookupKey, h, ih]

theorem lookupKey_eraseKey_other (k k2 : String) (l : List (String × Json))
    (h : k ≠ k2) : lookupKey k (eraseKey k2 l) = lookupKey k l := by
  induction l with
  | nil => simp [eraseKey]
  | cons kv rest ih =>
    obtain ⟨k3, v3⟩ := kv
    by_cases h3 : k3 = k2
    · subst h3
      simp [eraseKey, lookupKey, Ne.symm h, ih]
    · by_cases hk : k3 = k
      · simp [eraseKey, lookupKey, h3, hk, h]
      · simp [eraseKey, lookupKey, h3, hk, ih]

/-! ## Pipeline lemmas -/

theorem dispatchMultipart_eq_true (req : Req) :
    dispatchMultipart req = true ↔
      (req.method = "POST" ∧ strContains (reqContentType req) "multipart/form-data" = true) := by
  simp [dispatchMultipart, Bool.and_eq_true, beq_iff_eq]

theorem transformField_error_of_parse (cfg k v : String) (hparse : jsonParse v = none) :
    transformField cfg (k, v) = Except.error () := by
  simp [transformField, hparse]

theorem transformFields_error_of_mem (cfg : String) (fields : List (String × String))
    (k v : String) (hmem : (k, v) ∈ fields) (hparse : jsonParse v = none) :
    transformFields cfg fields = Except.error () := by
  induction fields with
  | nil => cases hmem
  | cons kv rest ih =>
    rcases List.mem_cons.mp hmem with h | h
    · rw [← h]
      simp [transformFields, transformField_error_of_parse cfg k v hparse]
    · unfold transformFields
      rw [ih h]
      cases h1 : transformField cfg kv <;> simp

theorem onProxyReq_badField (cfg bd : String) (req : Req) (k v : String)
    (hm : req.method = "POST")
    (hct : strContains (reqContentType req) "multipart/form-data" = true)
    (hmem : (k, v) ∈ req.body) (hparse : jsonParse v = none) :
    onProxyReq cfg bd req = ProxyAction.errorCaught true false := by
  have hd : dispatchMultipart req = true := (dispatchMultipart_eq_true req).mpr ⟨hm, hct⟩
  simp [onProxyReq, hd, transformFields_error_of_mem cfg req.body k v hmem hparse]

theorem onProxyReq_multipart_inv (cfg bd : String) (req : Req) (o : MultipartOutcome)
    (ho : onProxyReq cfg bd req = ProxyAction.multipart o) :
    ∃ fieldParts, transformFields cfg req.body = Except.ok fieldParts ∧
      o = finishMultipart bd (fieldParts ++ req.files.map mkFilePart) := by
  unfold onProxyReq at ho
  split at ho
  · cases htf : transformFields cfg req.body with
    | error e => rw [htf] at ho; simp at ho
    | ok ps =>
      rw [htf] at ho
      simp only [ProxyAction.multipart.injEq] at ho
      exact ⟨ps, rfl, ho.symm⟩
  · simp at ho

theorem emitParts_length (bd : String) (parts : List Part) :
    (emitParts bd parts).length = (parts.map (partLen bd)).sum := by
  induction parts with
  | nil => rfl
  | cons p ps ih =>
    simp [emitParts, emitPart, partLen, List.length_append, ih, Nat.add_assoc]

theorem getLengthSync_emitForm (bd : String) (parts : List Part) (m : Nat)
    (h : getLengthSync bd parts = Except.ok m) : m = (emitForm bd parts).length := by
  unfold getLengthSync at h
  split at h
  · injection h with h2
    subst h2
    cases parts with
    | nil => rfl
    | cons p ps => simp [emitForm, List.length_append, emitParts_length]
  · simp at h

theorem finishMultipart_contentLength_eq (bd : String) (parts : List Part) (n : Nat)
    (h : (finishMultipart bd parts).contentLength = some n) :
    n = (emitForm bd parts).length := by
  simp only [finishMultipart] at h
  cases hg : getLengthSync bd parts with
  | error e => rw [hg] at h; simp at h
  | ok m =>
    rw [hg] at h
    by_cases hm : m = 0
    · simp [hm] at h
    · simp [hm] at h
      exact h ▸ getLengthSync_emitForm bd parts m hg

/-! ## Claim theorems -/

/-- C1: for every text field whose value parses as a JSON object, the
transformed mapping contains `schemaName` set to the configured schema
name (`DOX_SCHEMA` environment value or the fixed default), contains no
`extraction` key, and preserves every other key with its original
value. -/
theorem c1_schema_injection (env : Option String) (s : String) (kvs : List (String × Json))
    (_hparse : jsonParse s = some (Json.obj kvs)) :
    ∃ kvs2,
      transformValue (doxSchemaName env) (Json.obj kvs) = Except.ok (Json.obj kvs2) ∧
      lookupKey "schemaName" kvs2 = some (Json.str (doxSchemaName env)) ∧
      lookupKey "extraction" kvs2 = none ∧
      ∀ k, k ≠ "schemaName" → k ≠ "extraction" → lookupKey k kvs2 = lookupKey k kvs := by
  refine ⟨eraseKey "extraction" (setKey "schemaName" (Json.str (doxSchemaName env)) kvs),
    rfl, ?_, ?_, ?_⟩
  · rw [lookupKey_eraseKey_other _ _ _ (by decide), lookupKey_setKey_self]
  · exact lookupKey_eraseKey_self _ _
  · intro k h1 h2
    rw [lookupKey_eraseKey_other _ _ _ h2, lookupKey_setKey_other _ _ _ _ h1]

/-- Witness for C1 at the spec's worked example field value. -/
theorem c1_schema_injection_witness :
    jsonParse "\x7b\"extraction\":\"foo\",\"user\":\"bob\"\x7d" =
      some (Json.obj [("extraction", Json.str "foo"), ("user", Json.str "bob")]) ∧
    ∃ kvs2,
      transformValue (doxSchemaName none)
          (Json.obj [("extraction", Json.str "foo"), ("user", Json.str "bob")]) =
        Except.ok (Json.obj kvs2) ∧
      lookupKey "schemaName" kvs2 = some (Json.str (doxSchemaName none)) ∧
      lookupKey "extraction" kvs2 = none ∧
      ∀ k, k ≠ "schemaName" → k ≠ "extraction" →
        lookupKey k kvs2 =
          lookupKey k [("extraction", Json.str "foo"), ("user", Json.str "bob")] :=
  ⟨rfl, c1_schema_injection none "\x7b\"extraction\":\"foo\",\"user\":\"bob\"\x7d" _ rfl⟩

/-- Concrete GET request carrying a multipart Content-Type header. -/
def reqGetMultipart : Req :=
  { method := "GET"
    contentType := some "multipart/form-data; boundary=xyz"
    body := []
    files := []
    rawBody := [9] }

/-- C2 counterexample: a GET request whose Content-Type contains
`multipart/form-data` is routed to the `fixRequestBody` passthrough, not
the Transformer/Encoder path, because line 33 also requires
`req.method === 'POST'`. -/
theorem c2_counterexample :
    strContains (reqContentType reqGetMultipart) "multipart/form-data" = true ∧
    onProxyReq "S" "B" reqGetMultipart = ProxyAction.passthrough :=
  ⟨rfl, rfl⟩

/-- C2 amended: a request is routed through the Transformer/Encoder
path exactly when its method is `POST` and its Content-Type contains the
substring `multipart/form-data` (case-sensitive); every other request —
including a multipart one with a non-POST method — takes the
`fixRequestBody` passthrough. -/
theorem c2_dispatch_requires_post (cfg bd : String) (req : Req) :
    onProxyReq cfg bd req = ProxyAction.passthrough ↔
      ¬(req.method = "POST" ∧ strContains (reqContentType req) "multipart/form-data" = true) := by
  rw [← dispatchMultipart_eq_true]
  unfold onProxyReq
  cases hd : dispatchMultipart req with
  | false => simp [hd]
  | true =>
    simp only [hd]
    cases htf : transformFields cfg req.body <;> simp [htf]

/-- C3 counterexample: the claim says the response-relay error handler
is active on the proxied-response path, but the `proxyRes` hook of the
`doxForward` configuration is commented out, so no such handler is
registered. -/
theorem c3_counterexample : doxForward.proxyResActive = false := rfl

/-- C3 amended: the source defines a response-relay error handler
(`onProxyRes`) that destroys the client connection when the upstream
response stream errors, but that handler is not registered in the
`doxForward` proxy configuration (the `proxyRes` hook is commented out),
so it is not active on the proxied-response path. -/
theorem c3_handler_defined_but_inactive :
    onProxyRes UpstreamResEvent.streamError = ClientAction.destroyClient ∧
    doxForward.proxyResActive = false :=
  ⟨rfl, rfl⟩

/-- C4: if any text field of a multipart request fails to parse as
JSON, the whole transformation fails; the exception is caught at the
outer boundary of `onProxyReq`, which logs it and sends no response to
the client. -/
theorem c4_parse_failure_caught (cfg bd : String) (req : Req) (k v : String)
    (hm : req.method = "POST")
    (hct : strContains (reqContentType req) "multipart/form-data" = true)
    (hmem : (k, v) ∈ req.body) (hparse : jsonParse v = none) :
    onProxyReq cfg bd req = ProxyAction.errorCaught true false :=
  onProxyReq_badField cfg bd req k v hm hct hmem hparse

/-- Concrete multipart POST request with an unparseable text field. -/
def reqBadField : Req :=
  { method := "POST"
    contentType := some "multipart/form-data; boundary=q"
    body := [("a", "oops")]
    files := []
    rawBody := [] }

/-- Witness for C4. -/
theorem c4_parse_failure_caught_witness :
    reqBadField.method = "POST" ∧
    strContains (reqContentType reqBadField) "multipart/form-data" = true ∧
    ("a", "oops") ∈ reqBadField.body ∧
    jsonParse "oops" = none ∧
    onProxyReq "S" "B" reqBadField = ProxyAction.errorCaught true false :=
  ⟨rfl, rfl, List.mem_cons_self _ _, rfl,
    c4_parse_failure_caught "S" "B" reqBadField "a" "oops" rfl rfl
      (List.mem_cons_self _ _) rfl⟩

/-- C5: a multipart request containing a text field that is not valid
JSON causes no outbound body bytes to be written at all — the field loop
runs before the form is piped, so the request is aborted before any
outbound bytes. -/
theorem c5_no_outbound_bytes (cfg bd : String) (req : Req) (k v : String)
    (hm : req.method = "POST")
    (hct : strContains (reqContentType req) "multipart/form-data" = true)
    (hmem : (k, v) ∈ req.body) (hparse : jsonParse v = none) :
    outboundBytes req (onProxyReq cfg bd req) = [] := by
  rw [onProxyReq_badField cfg bd req k v hm hct hmem hparse]
  rfl

/-- Concrete multipart POST request with a malformed field next to a
well-formed one. -/
def reqMixedFields : Req :=
  { method := "POST"
    contentType := some "multipart/form-data; boundary=q"
    body := [("good", "\x7b\x7d"), ("bad", "oops")]
    files := []
    rawBody := [] }

/-- Witness for C5. -/
theorem c5_no_outbound_bytes_witness :
    reqMixedFields.method = "POST" ∧
    strContains (reqContentType reqMixedFields) "multipart/form-data" = true ∧
    ("bad", "oops") ∈ reqMixedFields.body ∧
    jsonParse "oops" = none ∧
    outboundBytes reqMixedFields (onProxyReq "S" "B" reqMixedFields) = [] :=
  ⟨rfl, rfl, List.mem_cons_of_mem _ (List.mem_cons_self _ _), rfl,
    c5_no_outbound_bytes "S" "B" reqMixedFields "bad" "oops" rfl rfl
      (List.mem_cons_of_mem _ (List.mem_cons_self _ _)) rfl⟩

/-- C6: every uploaded file of the request reappears in the
reconstructed outbound body as a part with identical field name,
filename, MIME type and byte content. -/
theorem c6_file_fidelity (cfg bd : String) (req : Req) (f : UploadedFile)
    (o : MultipartOutcome)
    (hf : f ∈ req.files) (ho : onProxyReq cfg bd req = ProxyAction.multipart o) :
    Part.file f.fieldname f.originalname f.mimetype f.buffer ∈ o.parts := by
  obtain ⟨ps, htf, rfl⟩ := onProxyReq_multipart_inv cfg bd req o ho
  show Part.file f.fieldname f.originalname f.mimetype f.buffer ∈
    ps ++ req.files.map mkFilePart
  exact List.mem_append_right ps (List.mem_map_of_mem mkFilePart hf)

/-- Concrete uploaded file and the request carrying it. -/
def fileInvoice : UploadedFile :=
  { fieldname := "doc"
    originalname := "invoice.pdf"
    mimetype := "application/pdf"
    buffer := [1, 2, 3] }

def reqWithFile : Req :=
  { method := "POST"
    contentType := some "multipart/form-data; boundary=q"
    body := []
    files := [fileInvoice]
    rawBody := [] }

/-- Witness for C6. -/
theorem c6_file_fidelity_witness :
    fileInvoice ∈ reqWithFile.files ∧
    onProxyReq "S" "B" reqWithFile =
      ProxyAction.multipart (finishMultipart "B" [mkFilePart fileInvoice]) ∧
    Part.file fileInvoice.fieldname fileInvoice.originalname fileInvoice.mimetype
        fileInvoice.buffer ∈ (finishMultipart "B" [mkFilePart fileInvoice]).parts :=
  ⟨List.mem_cons_self _ _, rfl,
    c6_file_fidelity "S" "B" reqWithFile fileInvoice _ (List.mem_cons_self _ _) rfl⟩

/-- C7: whenever the multipart path sets a Content-Length, its value
equals the exact byte length of the transmitted multipart body. -/
theorem c7_content_length_exact (cfg bd : String) (req : Req) (o : MultipartOutcome)
    (n : Nat)
    (ho : onProxyReq cfg bd req = ProxyAction.multipart o)
    (hn : o.contentLength = some n) :
    n = o.body.length := by
  obtain ⟨ps, htf, rfl⟩ := onProxyReq_multipart_inv cfg bd req o ho
  exact finishMultipart_contentLength_eq bd _ n hn

/-- Concrete multipart POST request with one JSON field. -/
def reqMetaOnly : Req :=
  { method := "POST"
    contentType := some "multipart/form-data; boundary=q"
    body := [("meta", "\x7b\x7d")]
    files := []
    rawBody := [] }

def partsMeta : List Part := [Part.field "meta" "\x7b\"schemaName\":\"S\"\x7d"]

/-- Witness for C7. -/
theorem c7_content_length_exact_witness :
    onProxyReq "S" "B" reqMetaOnly = ProxyAction.multipart (finishMultipart "B" partsMeta) ∧
    (finishMultipart "B" partsMeta).contentLength = some ((emitForm "B" partsMeta).length) ∧
    (emitForm "B" partsMeta).length = (finishMultipart "B" partsMeta).body.length :=
  ⟨rfl, by decide,
    c7_content_length_exact "S" "B" reqMetaOnly (finishMultipart "B" partsMeta) _ rfl
      (by decide)⟩

/-- C8: when `getLengthSync` fails, the request is not failed — the
Content-Length header is simply omitted (chunked transfer) and the rest
of the multipart outcome is unchanged. -/
theorem c8_length_failure_fallback (bd : String) (parts : List Part)
    (h : getLengthSync bd parts = Except.error ()) :
    finishMultipart bd parts =
      { parts := parts, contentLength := none, body := emitForm bd parts } := by
  simp [finishMultipart, h]

/-- Witness for C8: a form containing a stream-backed part, whose length
`getLengthSync` cannot compute. -/
theorem c8_length_failure_fallback_witness :
    getLengthSync "B" [Part.stream "s" [1, 2, 3]] = Except.error () ∧
    finishMultipart "B" [Part.stream "s" [1, 2, 3]] =
      { parts := [Part.stream "s" [1, 2, 3]], contentLength := none,
        body := emitForm "B" [Part.stream "s" [1, 2, 3]] } :=
  ⟨rfl, c8_length_failure_fallback "B" [Part.stream "s" [1, 2, 3]] rfl⟩

/-- C9: for each terminal event of the piped form stream exactly one
terminal action is taken on the outbound request — destroy on error,
finalize on normal end; never both, never neither. -/
theorem c9_exactly_one_terminal_action (e : FormStreamEvent) :
    (outboundActionsFor e).length = 1 ∧
    (outboundActionsFor e = [OutboundAction.destroyReq] ↔ e = FormStreamEvent.streamError) ∧
    (outboundActionsFor e = [OutboundAction.finishReq] ↔ e = FormStreamEvent.streamEnd) := by
  cases e <;> exact ⟨rfl, by decide, by decide⟩

/-- Concrete multipart POST request whose only field is the JSON text
`null` — valid JSON, not an object. -/
def reqNullField : Req :=
  { method := "POST"
    contentType := some "multipart/form-data; boundary=q"
    body := [("meta", "null")]
    files := []
    rawBody := [] }

/-- C10 counterexample: the field value `null` parses as valid
non-object JSON, yet the transformation fails the request: the sloppy-
mode property write `jsonOptions.schemaName = ...` throws a `TypeError`
on `null`, which the outer catch swallows. -/
theorem c10_counterexample :
    jsonParse "null" = some Json.null ∧
    Json.null.isObj = false ∧
    onProxyReq "S" "B" reqNullField = ProxyAction.errorCaught true false :=
  ⟨rfl, rfl, rfl⟩

/-- C10 amended: for a text field whose value parses as valid JSON and
is neither an object nor `null` (a number, string, boolean or array),
the transformation does not fail and re-serializes the value unchanged,
so the result carries no `schemaName` key; for `null` the property
assignment throws and the request fails. -/
theorem c10_non_object_passthrough (cfg : String) (v : Json)
    (hobj : v.isObj = false) (hnull : v.isNull = false) :
    transformValue cfg v = Except.ok v ∧ jsonHasKey "schemaName" v = false := by
  cases v with
  | null => simp [Json.isNull] at hnull
  | obj kvs => simp [Json.isObj] at hobj
  | bool b => exact ⟨rfl, rfl⟩
  | num n => exact ⟨rfl, rfl⟩
  | str s => exact ⟨rfl, rfl⟩
  | arr xs => exact ⟨rfl, rfl⟩

/-- Witness for C10 amended, at a numeric field value. -/
theorem c10_non_object_passthrough_witness :
    (Json.num 5).isObj = false ∧ (Json.num 5).isNull = false ∧
    (transformValue "S" (Json.num 5) = Except.ok (Json.num 5) ∧
      jsonHasKey "schemaName" (Json.num 5) = false) :=
  ⟨rfl, rfl, c10_non_object_passthrough "S" (Json.num 5) rfl rfl⟩

end Soeproxy
